import Mathlib

/-!
Verification of the Bee client's feed and chunk subsystem.

The definitions below are a shallow embedding of the functions in the
repository source (the `Bee` class and the bytes module).  Collaborator
modules that are not part of the source tree (the feed reader, the
sequential-retrievability checker, topic/address canonicalization, the URL
helper) are modelled from the specification; each such definition carries a
doc comment saying so.  Byte strings are `List Nat`, text is `List Char` or
`String`, and JavaScript exceptions are the `Except.error` branch.
-/

/-- Errors thrown by the client, mirroring the error classes used by the
source (`BeeError`, `BeeArgumentError`, `TypeError`) together with errors
arriving from the HTTP transport, which the source re-throws unchanged. -/
inductive BeeJsError where
  | beeError (msg : String)
  | beeArgumentError (msg : String)
  | typeError (msg : String)
  | httpError (status : Nat)
  | transport
  deriving DecidableEq

/-- The message of the `BeeError` thrown by `isFeedRetrievable` for
non-sequence feeds with a target index. -/
def onlySequenceMsg : String := "Only Sequence type of Feeds is supported at the moment"

/-- Feed types supported by the API (`FeedType` in the source). -/
inductive FeedType where
  | sequence
  | epoch
  deriving DecidableEq

/-- Outcome of the external feed-reader collaborator call
`makeFeedReader(...).download()`: success, an HTTP error with a status code
(the source inspects `e.response.status`), or a non-HTTP transport error. -/
inductive DownloadOutcome where
  | ok
  | httpError (status : Nat)
  | otherError
  deriving DecidableEq

/-- `Bee.isFeedRetrievable` from the source.  With a falsy index (absent, or
the number `0`, which is falsy in JavaScript) it downloads the latest update
and maps HTTP 404 to `false`, re-throwing every other error unchanged; with a
truthy index it requires the sequence feed type (throwing a `BeeError`
otherwise) and delegates to the sequential chain check `chain`. -/
def isFeedRetrievable (type : FeedType) (download : DownloadOutcome)
    (chain : Nat → Bool) (index : Option Nat) : Except BeeJsError Bool :=
  if index = none ∨ index = some 0 then
    match download with
    | DownloadOutcome.ok => Except.ok true
    | DownloadOutcome.httpError s =>
      if s = 404 then Except.ok false else Except.error (BeeJsError.httpError s)
    | DownloadOutcome.otherError => Except.error BeeJsError.transport
  else if type = FeedType.sequence then
    Except.ok (chain (index.getD 0))
  else
    Except.error (BeeJsError.beeError onlySequenceMsg)

/-- The typed absence outcome of the feed reader. -/
inductive FeedError where
  | feedNotFound
  deriving DecidableEq

/-- Modelled from the spec: the doubling phase of the `readLatest` probing of
the feed reader module (absent from the source tree); starting from a known
bracket it doubles the upper probe until a miss is observed, returning the
final bracket.  `present i` is whether index `i` resolves and authenticates
in the store. -/
def findBracket (present : Nat → Bool) : Nat → Nat → Nat → Nat × Nat
  | 0, lo, hi => (lo, hi)
  | fuel + 1, lo, hi =>
    match present hi with
    | true => findBracket present fuel hi (2 * hi)
    | false => (lo, hi)

/-- Modelled from the spec: the binary-search phase of `readLatest` of the
feed reader module (absent from the source tree); it pinpoints the exact
highest present index inside a bracket whose lower end is present and whose
upper end is absent. -/
def binSearch (present : Nat → Bool) : Nat → Nat → Nat → Nat
  | 0, lo, _ => lo
  | fuel + 1, lo, hi =>
    if hi ≤ lo + 1 then lo
    else
      match present ((lo + hi) / 2) with
      | true => binSearch present fuel ((lo + hi) / 2) hi
      | false => binSearch present fuel lo ((lo + hi) / 2)

/-- Modelled from the spec: `readLatest` for a sequence feed, performed by the
feed reader module (absent from the source tree).  It fails with
`FeedNotFound` when even index 0 is absent, and otherwise resolves the
highest existing index by exponential search followed by binary search.
`fuel` bounds the doubling loop of the unbounded search. -/
def readLatestSeq (present : Nat → Bool) (fuel : Nat) : Except FeedError Nat :=
  match present 0 with
  | true =>
    Except.ok
      (binSearch present (findBracket present fuel 0 1).2 (findBracket present fuel 0 1).1
        (findBracket present fuel 0 1).2)
  | false => Except.error FeedError.feedNotFound

/-- Modelled from the spec: `areAllSequentialFeedsUpdateRetrievable` of the
feed retrievability module (absent from the source tree); it checks that
every index from 0 up to and including the target resolves. -/
def areAllSequentialFeedsUpdateRetrievable (present : Nat → Bool) (t : Nat) : Bool :=
  (List.range (t + 1)).all present

/-- Modelled from the spec: the outcome of the feed reader's `download()`
with no index, as seen by `isFeedRetrievable`: a successful `readLatest`
resolves, and its `FeedNotFound` miss surfaces as an HTTP 404. -/
def feedDownloadOutcome (present : Nat → Bool) (fuel : Nat) : DownloadOutcome :=
  match readLatestSeq present fuel with
  | Except.ok _ => DownloadOutcome.ok
  | Except.error _ => DownloadOutcome.httpError 404

/-- A sequence feed with updates present exactly at indices 0 to 4 except a
gap at index 2, used as the concrete scenario of the spec. -/
def exampleGap (i : Nat) : Bool := decide (i ≤ 4 ∧ i ≠ 2)

/-- A canonical signer as seen by the `Bee` class: the only field the feed
signing logic of the source reads is its derived owner address. -/
structure Signer where
  address : Nat
  deriving DecidableEq

/-- Message of the `BeeError` thrown by `Bee.resolveSigner` when no signer is
available. -/
def noSignerMsg : String :=
  "You have to pass Signer as property to either the method call or constructor! Non found."

/-- Message of the `BeeError` thrown by `getJsonFeed` when both `signer` and
`address` options are specified. -/
def bothOptionsMsg : String :=
  "Both options \"signer\" and \"address\" can not be specified at one time!"

/-- Message of the `BeeError` thrown by `getJsonFeed` when no identity can be
resolved. -/
def eitherMsg : String := "Either address, signer or default signer has to be specified!"

/-- `Bee.resolveSigner` from the source: the call-site signer wins, then the
instance default signer, and a `BeeError` is thrown when neither exists.
The external `makeSigner` canonicalizer (not in the source tree) is taken as
the identity on already-canonical signers. -/
def resolveSigner (defaultSigner : Option Signer) (signer : Option Signer) :
    Except BeeJsError Signer :=
  match signer with
  | some s => Except.ok s
  | none =>
    match defaultSigner with
    | some s => Except.ok s
    | none => Except.error (BeeJsError.beeError noSignerMsg)

/-- The identity-resolution phase of `Bee.getJsonFeed` from the source,
running before any network call: it throws when both the `signer` and the
`address` options are given, uses the `address` option next, and otherwise
resolves a signer via `resolveSigner`, translating its `BeeError` into the
either-message while re-throwing anything else.  The external
`makeEthAddress` canonicalizer is taken as the identity on canonical
addresses. -/
def getJsonFeedAddress (defaultSigner optSigner : Option Signer)
    (optAddress : Option Nat) : Except BeeJsError Nat :=
  match optSigner, optAddress with
  | some _, some _ => Except.error (BeeJsError.beeError bothOptionsMsg)
  | _, _ =>
    match optAddress with
    | some a => Except.ok a
    | none =>
      match resolveSigner defaultSigner optSigner with
      | Except.ok s => Except.ok s.address
      | Except.error (BeeJsError.beeError _) => Except.error (BeeJsError.beeError eitherMsg)
      | Except.error e => Except.error e

/-- Modelled from the spec: the 8-byte span length prefix of a chunk
(declared in the types module, absent from the source tree). -/
def SPAN_SIZE : Nat := 8

/-- Modelled from the spec: the store's maximum chunk payload size (declared
in the types module, absent from the source tree). -/
def CHUNK_SIZE : Nat := 4096

/-- Message of the `BeeArgumentError` thrown by `uploadChunk` on undersized
data (the source interpolates `SPAN_SIZE`). -/
def chunkTooSmallMsg : String := "Chunk has to have size of at least 8."

/-- Message of the `BeeArgumentError` thrown by `uploadChunk` on oversized
data (the source interpolates `CHUNK_SIZE`). -/
def chunkTooLargeMsg : String := "Chunk has to have size of at most 4096."

/-- The size-validation phase of `Bee.uploadChunk` from the source: data
shorter than the span prefix or longer than the maximum chunk size plus the
span prefix is rejected with a `BeeArgumentError` before the store call, and
anything else is forwarded to the store unmodified. -/
def uploadChunk (data : List Nat) : Except BeeJsError (List Nat) :=
  if data.length < SPAN_SIZE then
    Except.error (BeeJsError.beeArgumentError chunkTooSmallMsg)
  else if data.length > CHUNK_SIZE + SPAN_SIZE then
    Except.error (BeeJsError.beeArgumentError chunkTooLargeMsg)
  else
    Except.ok data

/-- Modelled from the spec: the value of one lowercase hex digit. -/
def hexDigitVal (c : Char) : Option Nat :=
  if 48 ≤ c.toNat ∧ c.toNat ≤ 57 then some (c.toNat - 48)
  else if 97 ≤ c.toNat ∧ c.toNat ≤ 102 then some (c.toNat - 87)
  else none

/-- Modelled from the spec: decoding of a lowercase hex string into bytes
(two digits per byte), as done by the hex utilities absent from the source
tree. -/
def hexDecode : List Char → Option (List Nat)
  | [] => some []
  | [_] => none
  | c1 :: c2 :: rest =>
    match hexDigitVal c1, hexDigitVal c2, hexDecode rest with
    | some h, some l, some tail => some ((16 * h + l) :: tail)
    | _, _, _ => none

/-- Modelled from the spec: one lowercase hex digit character. -/
def hexChar (n : Nat) : Char :=
  if n < 10 then Char.ofNat (48 + n) else Char.ofNat (87 + n)

/-- Modelled from the spec: encoding bytes as a lowercase hex string. -/
def hexEncode (bs : List Nat) : List Char :=
  bs.flatMap (fun b => [hexChar (b / 16), hexChar (b % 16)])

/-- The accepted input shapes of a feed topic at the public interface:
an already-canonical `Topic` value, raw bytes, or a hex string. -/
inductive TopicInput where
  | topic (t : List Nat)
  | bytes (b : List Nat)
  | hex (s : List Char)

/-- The byte string an accepted topic input stands for, independent of its
shape (`none` when the hex text is not decodable). -/
def TopicInput.denote : TopicInput → Option (List Nat)
  | TopicInput.topic t => some t
  | TopicInput.bytes b => some b
  | TopicInput.hex s => hexDecode s

/-- The accepted input shapes of a feed owner at the public interface:
an already-canonical `EthAddress`, raw bytes, or a hex string. -/
inductive OwnerInput where
  | address (a : List Nat)
  | bytes (b : List Nat)
  | hex (s : List Char)

/-- The byte string an accepted owner input stands for, independent of its
shape. -/
def OwnerInput.denote : OwnerInput → Option (List Nat)
  | OwnerInput.address a => some a
  | OwnerInput.bytes b => some b
  | OwnerInput.hex s => hexDecode s

/-- Message of the error thrown on an invalid topic input. -/
def invalidTopicMsg : String := "invalid topic"

/-- Message of the error thrown on an invalid owner input. -/
def invalidOwnerMsg : String := "invalid address"

/-- Modelled from the spec: `makeTopic`, the single canonicalization step
turning any accepted topic shape into the fixed 32-byte representation
(performed by the topic module, absent from the source tree); every shape is
validated to stand for exactly 32 bytes. -/
def makeTopic : TopicInput → Except BeeJsError (List Nat)
  | TopicInput.topic t =>
    if t.length = 32 then Except.ok t else Except.error (BeeJsError.typeError invalidTopicMsg)
  | TopicInput.bytes b =>
    if b.length = 32 then Except.ok b else Except.error (BeeJsError.typeError invalidTopicMsg)
  | TopicInput.hex s =>
    match hexDecode s with
    | some b =>
      if b.length = 32 then Except.ok b else Except.error (BeeJsError.typeError invalidTopicMsg)
    | none => Except.error (BeeJsError.typeError invalidTopicMsg)

/-- Modelled from the spec: `makeEthAddress`, the single canonicalization
step turning any accepted owner shape into the fixed 20-byte representation
(performed by the eth utilities, absent from the source tree). -/
def makeEthAddress : OwnerInput → Except BeeJsError (List Nat)
  | OwnerInput.address a =>
    if a.length = 20 then Except.ok a else Except.error (BeeJsError.typeError invalidOwnerMsg)
  | OwnerInput.bytes b =>
    if b.length = 20 then Except.ok b else Except.error (BeeJsError.typeError invalidOwnerMsg)
  | OwnerInput.hex s =>
    match hexDecode s with
    | some b =>
      if b.length = 20 then Except.ok b else Except.error (BeeJsError.typeError invalidOwnerMsg)
    | none => Except.error (BeeJsError.typeError invalidOwnerMsg)

/-- Modelled from the spec: `makeHexEthAddress`, canonicalizing an owner
input and rendering it as lowercase hex for the HTTP path. -/
def makeHexEthAddress (o : OwnerInput) : Except BeeJsError (List Char) :=
  match makeEthAddress o with
  | Except.ok b => Except.ok (hexEncode b)
  | Except.error e => Except.error e

/-- The canonicalization phase of `Bee.createFeedManifest` from the source:
topic first, then owner (as hex), both converted before the network call,
whose request parameters are returned. -/
def createFeedManifestParams (type : FeedType) (topic : TopicInput) (owner : OwnerInput) :
    Except BeeJsError (FeedType × List Nat × List Char) :=
  match makeTopic topic with
  | Except.error e => Except.error e
  | Except.ok ct =>
    match makeHexEthAddress owner with
    | Except.error e => Except.error e
    | Except.ok co => Except.ok (type, ct, co)

/-- The canonicalization phase of `Bee.makeFeedReader` from the source:
topic first, then owner (as hex), both converted before the reader is
constructed over them. -/
def makeFeedReaderParams (type : FeedType) (topic : TopicInput) (owner : OwnerInput) :
    Except BeeJsError (FeedType × List Nat × List Char) :=
  match makeTopic topic with
  | Except.error e => Except.error e
  | Except.ok ct =>
    match makeHexEthAddress owner with
    | Except.error e => Except.error e
    | Except.ok co => Except.ok (type, ct, co)

/-- The canonicalization phase of `Bee.makeFeedWriter` from the source:
topic converted, then the signer resolved, before the writer is constructed
over them. -/
def makeFeedWriterParams (type : FeedType) (topic : TopicInput)
    (defaultSigner signer : Option Signer) : Except BeeJsError (FeedType × List Nat × Signer) :=
  match makeTopic topic with
  | Except.error e => Except.error e
  | Except.ok ct =>
    match resolveSigner defaultSigner signer with
    | Except.error e => Except.error e
    | Except.ok s => Except.ok (type, ct, s)

/-- The canonicalization phase of `Bee.isFeedRetrievable` from the source:
owner first, then topic, both converted before any retrievability logic. -/
def isFeedRetrievableParams (owner : OwnerInput) (topic : TopicInput) :
    Except BeeJsError (List Nat × List Nat) :=
  match makeEthAddress owner with
  | Except.error e => Except.error e
  | Except.ok co =>
    match makeTopic topic with
    | Except.error e => Except.error e
    | Except.ok ct => Except.ok (co, ct)

/-- `Bee.isConnected` from the source: the underlying connection check runs
inside a try block whose catch-all returns `false`, and success returns
`true`. -/
def isConnected (check : Except BeeJsError Unit) : Except BeeJsError Bool :=
  match check with
  | Except.ok _ => Except.ok true
  | Except.error _ => Except.ok false

/-- Modelled from the spec: `stripLastSlash` of the URL utilities (absent
from the source tree); the source's constructor comment says it removes the
last slash if present. -/
def stripLastSlash (url : List Char) : List Char :=
  if url.getLast? = some '/' then url.dropLast else url

/-- Modelled from the spec: `assertBeeUrl` of the URL utilities (absent from
the source tree), accepting http or https URLs. -/
def validBeeUrl : List Char → Bool
  | 'h' :: 't' :: 't' :: 'p' :: ':' :: '/' :: '/' :: _ => true
  | 'h' :: 't' :: 't' :: 'p' :: 's' :: ':' :: '/' :: '/' :: _ => true
  | _ => false

/-- The state the `Bee` constructor establishes that the claims are about:
the stored node URL. -/
structure BeeInstance where
  url : List Char
  deriving DecidableEq

/-- The `Bee` constructor from the source: it validates the URL (throwing a
`BeeArgumentError` otherwise) and stores it with a single trailing slash
stripped. -/
def beeConstructor (url : List Char) : Except BeeJsError BeeInstance :=
  match validBeeUrl url with
  | true => Except.ok ⟨stripLastSlash url⟩
  | false => Except.error (BeeJsError.beeArgumentError "Invalid URL")

lemma findBracket_bracket (present : Nat → Bool) (N : Nat)
    (hp : ∀ i, present i = decide (i ≤ N)) :
    ∀ fuel lo hi, lo ≤ N → N < 2 ^ fuel * hi →
      (findBracket present fuel lo hi).1 ≤ N ∧ N < (findBracket present fuel lo hi).2 := by
  intro fuel
  induction fuel with
  | zero =>
    intro lo hi hlo hhi
    simp only [findBracket]
    exact ⟨hlo, by simpa using hhi⟩
  | succ fuel ih =>
    intro lo hi hlo hhi
    by_cases hle : hi ≤ N
    · have hph : present hi = true := by rw [hp]; exact decide_eq_true hle
      simp only [findBracket, hph]
      exact ih hi (2 * hi) hle (by rw [pow_succ, Nat.mul_assoc] at hhi; exact hhi)
    · have hph : present hi = false := by rw [hp]; exact decide_eq_false hle
      simp only [findBracket, hph]
      exact ⟨hlo, Nat.not_le.mp hle⟩

lemma binSearch_eq (present : Nat → Bool) (N : Nat)
    (hp : ∀ i, present i = decide (i ≤ N)) :
    ∀ fuel lo hi, lo ≤ N → N < hi → hi ≤ lo + 2 ^ fuel →
      binSearch present fuel lo hi = N := by
  intro fuel
  induction fuel with
  | zero =>
    intro lo hi h1 h2 h3
    simp only [binSearch]
    simp only [pow_zero] at h3
    omega
  | succ fuel ih =>
    intro lo hi h1 h2 h3
    have h2p : (2 : Nat) ^ (fuel + 1) = 2 ^ fuel + 2 ^ fuel := by
      rw [pow_succ]; omega
    by_cases hcl : hi ≤ lo + 1
    · simp only [binSearch, if_pos hcl]
      omega
    · by_cases hm : (lo + hi) / 2 ≤ N
      · have hpm : present ((lo + hi) / 2) = true := by rw [hp]; exact decide_eq_true hm
        simp only [binSearch, if_neg hcl, hpm]
        exact ih ((lo + hi) / 2) hi hm h2 (by omega)
      · have hpm : present ((lo + hi) / 2) = false := by rw [hp]; exact decide_eq_false hm
        simp only [binSearch, if_neg hcl, hpm]
        exact ih lo ((lo + hi) / 2) h1 (Nat.not_le.mp hm) (by omega)

lemma areAll_eq_true_iff (present : Nat → Bool) (t : Nat) :
    areAllSequentialFeedsUpdateRetrievable present t = true ↔
      ∀ i, i ≤ t → present i = true := by
  unfold areAllSequentialFeedsUpdateRetrievable
  rw [List.all_eq_true]
  constructor
  · intro h i hi
    exact h i (List.mem_range.mpr (Nat.lt_succ_iff.mpr hi))
  · intro h x hx
    exact h x (Nat.lt_succ_iff.mp (List.mem_range.mp hx))

lemma feedDownloadOutcome_eq (present : Nat → Bool) (fuel : Nat) :
    feedDownloadOutcome present fuel =
      match present 0 with
      | true => DownloadOutcome.ok
      | false => DownloadOutcome.httpError 404 := by
  unfold feedDownloadOutcome readLatestSeq
  cases present 0 <;> rfl

lemma isFeedRetrievable_chain_bool (present : Nat → Bool) (fuel t : Nat) :
    ∃ b : Bool,
      isFeedRetrievable FeedType.sequence (feedDownloadOutcome present fuel)
          (areAllSequentialFeedsUpdateRetrievable present) (some t) = Except.ok b ∧
        (b = true ↔ ∀ i, i ≤ t → present i = true) := by
  cases t with
  | zero =>
    refine ⟨present 0, ?_, ?_⟩
    · unfold isFeedRetrievable
      rw [if_pos (Or.inr rfl), feedDownloadOutcome_eq]
      cases present 0 <;> rfl
    · constructor
      · intro hb i hi
        exact Nat.le_zero.mp hi ▸ hb
      · intro h
        exact h 0 (Nat.le_refl 0)
  | succ n =>
    refine ⟨areAllSequentialFeedsUpdateRetrievable present (n + 1), ?_,
      areAll_eq_true_iff present (n + 1)⟩
    unfold isFeedRetrievable
    rw [if_neg (by simp), if_pos rfl]
    rfl

/-- C1: for a sequence feed, `isFeedRetrievable` with a target index `t`
returns `true` exactly when every index from 0 up to and including `t`
resolves and authenticates, and returns `false` exactly when some index in
that range is missing or invalid; in particular with target 4 and index 2
missing it returns `false` even though 0, 1, 3 and 4 all resolve. -/
theorem isFeedRetrievable_sequence_chain_check (present : Nat → Bool) (fuel t : Nat) :
    (isFeedRetrievable FeedType.sequence (feedDownloadOutcome present fuel)
        (areAllSequentialFeedsUpdateRetrievable present) (some t) = Except.ok true ↔
      ∀ i, i ≤ t → present i = true) ∧
    (isFeedRetrievable FeedType.sequence (feedDownloadOutcome present fuel)
        (areAllSequentialFeedsUpdateRetrievable present) (some t) = Except.ok false ↔
      ¬ ∀ i, i ≤ t → present i = true) ∧
    isFeedRetrievable FeedType.sequence (feedDownloadOutcome exampleGap 10)
        (areAllSequentialFeedsUpdateRetrievable exampleGap) (some 4) = Except.ok false := by
  obtain ⟨b, hb, hiff⟩ := isFeedRetrievable_chain_bool present fuel t
  refine ⟨?_, ?_, rfl⟩
  · rw [hb]
    constructor
    · intro h
      exact hiff.mp (Except.ok.inj h)
    · intro h
      rw [hiff.mpr h]
  · rw [hb]
    constructor
    · intro h
      have hbf : b = false := Except.ok.inj h
      intro hall
      rw [hiff.mpr hall] at hbf
      exact Bool.noConfusion hbf
    · intro h
      have hbf : b = false := by
        cases b with
        | true => exact absurd (hiff.mp rfl) h
        | false => rfl
      rw [hbf]

/-- C2 counterexample: for an epoch feed with target index 1,
`isFeedRetrievable` throws a `BeeError` instead of walking the ancestor
chain and returning a boolean verdict. -/
theorem isFeedRetrievable_epoch_cx :
    isFeedRetrievable FeedType.epoch DownloadOutcome.ok (fun _ => true) (some 1) =
      Except.error (BeeJsError.beeError onlySequenceMsg) := rfl

/-- C2 amended: for every epoch feed, `isFeedRetrievable` with a nonzero
target index throws the only-sequence `BeeError`; no ancestor-chain walk is
performed. -/
theorem isFeedRetrievable_epoch_throws (download : DownloadOutcome) (chain : Nat → Bool)
    (t : Nat) (ht : t ≠ 0) :
    isFeedRetrievable FeedType.epoch download chain (some t) =
      Except.error (BeeJsError.beeError onlySequenceMsg) := by
  unfold isFeedRetrievable
  rw [if_neg (by simp [ht]), if_neg (by intro h; exact FeedType.noConfusion h)]

theorem isFeedRetrievable_epoch_throws_w :
    isFeedRetrievable FeedType.epoch DownloadOutcome.otherError (fun _ => false) (some 2) =
      Except.error (BeeJsError.beeError onlySequenceMsg) :=
  isFeedRetrievable_epoch_throws DownloadOutcome.otherError (fun _ => false) 2 (by decide)

/-- C3: for every feed type, `isFeedRetrievable` with no target index maps a
successful latest-update download to `true` and an HTTP 404 miss to `false`,
while every other error (an HTTP error with another status, or a non-HTTP
transport failure) is re-thrown unchanged. -/
theorem isFeedRetrievable_latest_boolean (type : FeedType) (chain : Nat → Bool) :
    isFeedRetrievable type DownloadOutcome.ok chain none = Except.ok true ∧
    isFeedRetrievable type (DownloadOutcome.httpError 404) chain none = Except.ok false ∧
    (∀ s, s ≠ 404 →
      isFeedRetrievable type (DownloadOutcome.httpError s) chain none =
        Except.error (BeeJsError.httpError s)) ∧
    isFeedRetrievable type DownloadOutcome.otherError chain none =
      Except.error BeeJsError.transport := by
  refine ⟨rfl, rfl, fun s hs => ?_, rfl⟩
  show (if s = 404 then (Except.ok false : Except BeeJsError Bool)
      else Except.error (BeeJsError.httpError s)) = Except.error (BeeJsError.httpError s)
  rw [if_neg hs]

theorem isFeedRetrievable_latest_boolean_w :
    isFeedRetrievable FeedType.sequence (DownloadOutcome.httpError 500) (fun _ => true) none =
      Except.error (BeeJsError.httpError 500) :=
  (isFeedRetrievable_latest_boolean FeedType.sequence (fun _ => true)).2.2.1 500 (by decide)

/-- C6: on a sequence feed whose updates exist exactly at the indices 0 to N
(with N+1 absent), `readLatest` resolves the highest existing index N, and
it fails with `FeedNotFound` when even index 0 is absent. -/
theorem readLatestSeq_resolves_highest (present : Nat → Bool) (N fuel : Nat)
    (hfuel : N < 2 ^ fuel) (hp : ∀ i, present i = decide (i ≤ N)) :
    readLatestSeq present fuel = Except.ok N ∧
      ∀ q : Nat → Bool, q 0 = false →
        readLatestSeq q fuel = Except.error FeedError.feedNotFound := by
  constructor
  · have h0 : present 0 = true := by rw [hp]; exact decide_eq_true (Nat.zero_le N)
    have hb := findBracket_bracket present N hp fuel 0 1 (Nat.zero_le N) (by simpa using hfuel)
    simp only [readLatestSeq, h0]
    rw [binSearch_eq present N hp (findBracket present fuel 0 1).2
      (findBracket present fuel 0 1).1 (findBracket present fuel 0 1).2 hb.1 hb.2
      (by have := Nat.lt_two_pow (findBracket present fuel 0 1).2; omega)]
  · intro q hq
    simp only [readLatestSeq, hq]

theorem readLatestSeq_resolves_highest_w :
    readLatestSeq (fun i => decide (i ≤ 4)) 3 = Except.ok 4 ∧
    readLatestSeq (fun _ => false) 3 = Except.error FeedError.feedNotFound := by
  have h := readLatestSeq_resolves_highest (fun i => decide (i ≤ 4)) 4 3 (by decide) fun i => rfl
  exact ⟨h.1, h.2 (fun _ => false) rfl⟩

/-- C4 counterexample: with a call-site signer, a call-site address and an
instance default signer all available, `getJsonFeed` raises an error instead
of choosing an identity by precedence. -/
theorem getJsonFeed_both_specified_cx :
    getJsonFeedAddress (some ⟨1⟩) (some ⟨2⟩) (some 3) =
      Except.error (BeeJsError.beeError bothOptionsMsg) := rfl

/-- C4 amended: `makeFeedWriter`, `makeSOCWriter` and `setJsonFeed` resolve
the signing identity by call-site signer first, then the instance default
signer, erroring when neither exists (they accept no call-site address);
`getJsonFeed` uses the call-site address if given, else the call-site
signer, else the default signer, and raises an error both when none of the
three is available and whenever the signer and address options are given
together. -/
theorem signer_precedence_actual :
    (∀ d s, resolveSigner d (some s) = Except.ok s) ∧
    (∀ s, resolveSigner (some s) none = Except.ok s) ∧
    resolveSigner none none = Except.error (BeeJsError.beeError noSignerMsg) ∧
    (∀ d s a, getJsonFeedAddress d (some s) (some a) =
      Except.error (BeeJsError.beeError bothOptionsMsg)) ∧
    (∀ d a, getJsonFeedAddress d none (some a) = Except.ok a) ∧
    (∀ d s, getJsonFeedAddress d (some s) none = Except.ok s.address) ∧
    (∀ s, getJsonFeedAddress (some s) none none = Except.ok s.address) ∧
    getJsonFeedAddress none none none = Except.error (BeeJsError.beeError eitherMsg) :=
  ⟨fun _ _ => rfl, fun _ => rfl, rfl, fun _ _ _ => rfl, fun _ _ => rfl, fun _ _ => rfl,
    fun _ => rfl, rfl⟩

/-- C5: `uploadChunk` fails before the store call with the too-small error
when the data length is below the span prefix size, with the too-large error
when it exceeds the maximum chunk size plus the span prefix, and forwards
data within the bounds to the store unmodified. -/
theorem uploadChunk_size_bounds (data : List Nat) :
    (data.length < SPAN_SIZE →
      uploadChunk data = Except.error (BeeJsError.beeArgumentError chunkTooSmallMsg)) ∧
    (data.length > CHUNK_SIZE + SPAN_SIZE →
      uploadChunk data = Except.error (BeeJsError.beeArgumentError chunkTooLargeMsg)) ∧
    (SPAN_SIZE ≤ data.length → data.length ≤ CHUNK_SIZE + SPAN_SIZE →
      uploadChunk data = Except.ok data) := by
  unfold uploadChunk
  refine ⟨fun h => ?_, fun h => ?_, fun h1 h2 => ?_⟩
  · rw [if_pos h]
  · simp only [SPAN_SIZE, CHUNK_SIZE] at h ⊢
    rw [if_neg (by omega), if_pos h]
  · simp only [SPAN_SIZE, CHUNK_SIZE] at h1 h2 ⊢
    rw [if_neg (by omega), if_neg (by omega)]

theorem uploadChunk_size_bounds_w :
    uploadChunk (List.replicate 3 0) =
      Except.error (BeeJsError.beeArgumentError chunkTooSmallMsg) ∧
    uploadChunk (List.replicate 9 0) = Except.ok (List.replicate 9 0) :=
  ⟨(uploadChunk_size_bounds (List.replicate 3 0)).1 (by decide),
    (uploadChunk_size_bounds (List.replicate 9 0)).2.2 (by decide) (by decide)⟩

/-- The canonical topic determined by the bytes a topic input stands for. -/
def canonTopic : Option (List Nat) → Except BeeJsError (List Nat)
  | some b =>
    if b.length = 32 then Except.ok b else Except.error (BeeJsError.typeError invalidTopicMsg)
  | none => Except.error (BeeJsError.typeError invalidTopicMsg)

/-- The canonical address determined by the bytes an owner input stands
for. -/
def canonOwner : Option (List Nat) → Except BeeJsError (List Nat)
  | some b =>
    if b.length = 20 then Except.ok b else Except.error (BeeJsError.typeError invalidOwnerMsg)
  | none => Except.error (BeeJsError.typeError invalidOwnerMsg)

lemma makeTopic_denote (t : TopicInput) : makeTopic t = canonTopic t.denote := by
  cases t with
  | topic t => rfl
  | bytes b => rfl
  | hex s =>
    unfold makeTopic TopicInput.denote canonTopic
    cases hexDecode s <;> rfl

lemma makeEthAddress_denote (o : OwnerInput) : makeEthAddress o = canonOwner o.denote := by
  cases o with
  | address a => rfl
  | bytes b => rfl
  | hex s =>
    unfold makeEthAddress OwnerInput.denote canonOwner
    cases hexDecode s <;> rfl

/-- C7: every public feed entry point canonicalizes its topic and owner
inputs in a single step before any addressing or network logic runs, so
inputs standing for the same bytes in different shapes produce identical
downstream request parameters. -/
theorem feed_entry_canonicalization (ty : FeedType) (t1 t2 : TopicInput)
    (o1 o2 : OwnerInput) (d sg : Option Signer)
    (ht : t1.denote = t2.denote) (ho : o1.denote = o2.denote) :
    createFeedManifestParams ty t1 o1 = createFeedManifestParams ty t2 o2 ∧
    makeFeedReaderParams ty t1 o1 = makeFeedReaderParams ty t2 o2 ∧
    makeFeedWriterParams ty t1 d sg = makeFeedWriterParams ty t2 d sg ∧
    isFeedRetrievableParams o1 t1 = isFeedRetrievableParams o2 t2 := by
  have hT : makeTopic t1 = makeTopic t2 := by
    rw [makeTopic_denote, makeTopic_denote, ht]
  have hO : makeEthAddress o1 = makeEthAddress o2 := by
    rw [makeEthAddress_denote, makeEthAddress_denote, ho]
  have hOh : makeHexEthAddress o1 = makeHexEthAddress o2 := by
    unfold makeHexEthAddress
    rw [hO]
  refine ⟨?_, ?_, ?_, ?_⟩
  · unfold createFeedManifestParams
    rw [hT, hOh]
  · unfold makeFeedReaderParams
    rw [hT, hOh]
  · unfold makeFeedWriterParams
    rw [hT]
  · unfold isFeedRetrievableParams
    rw [hO, hT]

theorem feed_entry_canonicalization_w :
    isFeedRetrievableParams (OwnerInput.bytes (List.replicate 20 0))
        (TopicInput.bytes (List.replicate 32 0)) =
      isFeedRetrievableParams (OwnerInput.hex (List.replicate 40 '0'))
        (TopicInput.hex (List.replicate 64 '0')) :=
  (feed_entry_canonicalization FeedType.sequence (TopicInput.bytes (List.replicate 32 0))
    (TopicInput.hex (List.replicate 64 '0')) (OwnerInput.bytes (List.replicate 20 0))
    (OwnerInput.hex (List.replicate 40 '0')) none none (by rfl) (by rfl)).2.2.2

/-- C8: `getJsonFeed` throws a `BeeError` whenever both the signer and the
address options are specified at the same time, before any network call. -/
theorem getJsonFeed_both_specified_error (d : Option Signer) (s : Signer) (a : Nat) :
    getJsonFeedAddress d (some s) (some a) =
      Except.error (BeeJsError.beeError bothOptionsMsg) := rfl

/-- C9: `isConnected` never rejects: it returns `true` when the underlying
connection check succeeds and `false` when the check throws any error,
swallowing the error. -/
theorem isConnected_never_rejects :
    isConnected (Except.ok ()) = Except.ok true ∧
    (∀ e, isConnected (Except.error e) = Except.ok false) ∧
    ∀ c, isConnected c = Except.ok true ∨ isConnected c = Except.ok false := by
  refine ⟨rfl, fun e => rfl, fun c => ?_⟩
  cases c with
  | ok u => exact Or.inl rfl
  | error e => exact Or.inr rfl

/-- C10: the `Bee` constructor, after validating the URL, stores the node
URL with a single trailing slash stripped: appending the slash back recovers
the input when it ended with one, and the URL is stored verbatim
otherwise. -/
theorem bee_constructor_strips_slash (u : List Char) (b : BeeInstance)
    (hv : validBeeUrl u = true) (hc : beeConstructor u = Except.ok b) :
    (u.getLast? = some '/' → b.url ++ ['/'] = u) ∧
    (u.getLast? ≠ some '/' → b.url = u) := by
  unfold beeConstructor at hc
  simp only [hv] at hc
  have hb : b = BeeInstance.mk (stripLastSlash u) := (Except.ok.inj hc).symm
  subst hb
  constructor
  · intro hl
    have hne : u ≠ [] := by
      intro hnil
      rw [hnil] at hl
      exact Option.noConfusion hl
    have hlast : u.getLast hne = '/' := by
      have hq := List.getLast?_eq_getLast u hne
      rw [hq] at hl
      exact Option.some.inj hl
    show stripLastSlash u ++ ['/'] = u
    unfold stripLastSlash
    rw [if_pos hl, ← hlast]
    exact List.dropLast_append_getLast hne
  · intro hl
    show stripLastSlash u = u
    unfold stripLastSlash
    rw [if_neg hl]

theorem bee_constructor_strips_slash_w :
    BeeInstance.url ⟨['h', 't', 't', 'p', ':', '/', '/', 'a']⟩ ++ ['/'] =
      ['h', 't', 't', 'p', ':', '/', '/', 'a', '/'] := by
  have h := bee_constructor_strips_slash ['h', 't', 't', 'p', ':', '/', '/', 'a', '/']
    ⟨['h', 't', 't', 'p', ':', '/', '/', 'a']⟩ rfl rfl
  exact h.1 rfl
